import Mathlib

/-!
Verification of the asset-version bookkeeping of the home-renovation
assistant (src/tools.py), as a shallow embedding in Lean.

The per-session `tool_context.state` dictionary is embedded as a
`SessionState` record: the nested dictionaries `asset_versions` and
`asset_filenames` and the per-asset history lists (stored in Python under
the key obtained by appending the suffix "_history" to the asset name,
which is injective in the asset name) become string-keyed association
lists with Python-dict semantics (first binding wins on lookup, assignment
replaces in place).  The external collaborators (the generative-model
stream, the artifact store, the filesystem) are parameters of the handler
functions: each handler consumes a record of collaborator outcomes and
returns the reply, the new state and the list of files written to disk.
-/

/-- Lookup in a Python-dict-like association list: the value bound to the
first matching key, if any. -/
def dictGet {α : Type} (d : List (String × α)) (k : String) : Option α :=
  match d with
  | [] => none
  | (k', v) :: rest => if k' = k then some v else dictGet rest k

/-- Python dict assignment `d[k] = v`: replace the existing binding in place,
or append a new one. -/
def dictInsert {α : Type} (k : String) (v : α) (d : List (String × α)) :
    List (String × α) :=
  match d with
  | [] => [(k, v)]
  | (k', v') :: rest =>
      if k' = k then (k, v) :: rest else (k', v') :: dictInsert k v rest

/-- The session-scoped mutable state relevant to asset versioning
(`tool_context.state` in src/tools.py). -/
structure SessionState where
  asset_versions : List (String × Nat)
  asset_filenames : List (String × String)
  histories : List (String × List (Nat × String))
  last_generated_rendering : Option String
  current_asset_name : Option String
  deriving Repr, DecidableEq

/-- The state of a fresh session: every dictionary empty, every key unset. -/
def emptySession : SessionState :=
  { asset_versions := []
    asset_filenames := []
    histories := []
    last_generated_rendering := none
    current_asset_name := none }

/-- src/tools.py `get_next_version_number`: read the current version of the
asset (0 when the asset is unknown) and return its successor.  The Python
function performs no writes, so its embedding returns only the number. -/
def get_next_version_number (st : SessionState) (asset_name : String) : Nat :=
  (dictGet st.asset_versions asset_name).getD 0 + 1

/-- src/tools.py `update_asset_version`: unconditionally set the asset's
current version and filename and append the pair to its history list
(creating the empty history first when absent). -/
def update_asset_version (st : SessionState) (asset_name : String)
    (version : Nat) (filename : String) : SessionState :=
  { st with
    asset_versions := dictInsert asset_name version st.asset_versions
    asset_filenames := dictInsert asset_name filename st.asset_filenames
    histories :=
      dictInsert asset_name
        ((dictGet st.histories asset_name).getD [] ++ [(version, filename)])
        st.histories }

/-- src/tools.py `create_versioned_filename`: the pure filename scheme. -/
def create_versioned_filename (asset_name : String) (version : Nat)
    (file_extension : String) : String :=
  asset_name ++ "_v" ++ toString version ++ "." ++ file_extension

/-- The history list recorded for an asset ([] when none exists yet). -/
def assetHistory (st : SessionState) (a : String) : List (Nat × String) :=
  (dictGet st.histories a).getD []

/-- The version numbers recorded in an asset's history, in insertion order. -/
def historyVersions (st : SessionState) (a : String) : List Nat :=
  (assetHistory st a).map Prod.fst

/-- The stored current version of an asset, 0 when the asset is unknown. -/
def currentVersionOf (st : SessionState) (a : String) : Nat :=
  (dictGet st.asset_versions a).getD 0

theorem dictGet_dictInsert_self {α : Type} (d : List (String × α)) (k : String)
    (v : α) : dictGet (dictInsert k v d) k = some v := by
  induction d with
  | nil => simp [dictInsert, dictGet]
  | cons hd tl ih =>
      obtain ⟨k', v'⟩ := hd
      by_cases h : k' = k
      · simp [dictInsert, h, dictGet]
      · simp [dictInsert, h, dictGet, ih]

theorem dictGet_dictInsert_ne {α : Type} (d : List (String × α)) (k a : String)
    (v : α) (h : a ≠ k) : dictGet (dictInsert k v d) a = dictGet d a := by
  induction d with
  | nil => simp [dictInsert, dictGet, Ne.symm h]
  | cons hd tl ih =>
      obtain ⟨k', v'⟩ := hd
      by_cases hk : k' = k
      · subst hk
        simp [dictInsert, dictGet, Ne.symm h]
      · simp [dictInsert, hk, dictGet, ih]

theorem assetHistory_update_self (st : SessionState) (a : String) (v : Nat)
    (f : String) :
    assetHistory (update_asset_version st a v f) a =
      assetHistory st a ++ [(v, f)] := by
  simp [assetHistory, update_asset_version, dictGet_dictInsert_self]

theorem assetHistory_update_ne (st : SessionState) (a b : String) (v : Nat)
    (f : String) (h : a ≠ b) :
    assetHistory (update_asset_version st b v f) a = assetHistory st a := by
  simp [assetHistory, update_asset_version, dictGet_dictInsert_ne _ _ _ _ h]

theorem currentVersionOf_update_self (st : SessionState) (a : String) (v : Nat)
    (f : String) : currentVersionOf (update_asset_version st a v f) a = v := by
  simp [currentVersionOf, update_asset_version, dictGet_dictInsert_self]

theorem currentVersionOf_update_ne (st : SessionState) (a b : String) (v : Nat)
    (f : String) (h : a ≠ b) :
    currentVersionOf (update_asset_version st b v f) a = currentVersionOf st a := by
  simp [currentVersionOf, update_asset_version, dictGet_dictInsert_ne _ _ _ _ h]

/-- C3: immediately after `update_asset_version st a v f` (the store's commit),
the current-version map holds v, the current-filename map holds f, the pair
(v, f) is the last entry of the asset's history, and
`get_next_version_number` returns v + 1. -/
theorem commit_establishes_latest (st : SessionState) (a : String) (v : Nat)
    (f : String) :
    dictGet (update_asset_version st a v f).asset_versions a = some v ∧
    dictGet (update_asset_version st a v f).asset_filenames a = some f ∧
    (assetHistory (update_asset_version st a v f) a).getLast? = some (v, f) ∧
    get_next_version_number (update_asset_version st a v f) a = v + 1 := by
  refine ⟨?_, ?_, ?_, ?_⟩
  · simp [update_asset_version, dictGet_dictInsert_self]
  · simp [update_asset_version, dictGet_dictInsert_self]
  · rw [assetHistory_update_self]
    simp
  · simp [get_next_version_number, update_asset_version, dictGet_dictInsert_self]

/-- C6: `get_next_version_number` returns the stored current version plus one
(its embedding is a pure read, performing no state update), and for an asset
with no recorded version (hence no history) it returns 1. -/
theorem next_version_reads_current (st : SessionState) (a : String) :
    get_next_version_number st a = currentVersionOf st a + 1 ∧
    (dictGet st.asset_versions a = none → get_next_version_number st a = 1) := by
  constructor
  · rfl
  · intro h
    simp [get_next_version_number, h]

theorem next_version_reads_current_witness :
    get_next_version_number emptySession "kitchen_renovation" = 1 :=
  (next_version_reads_current emptySession "kitchen_renovation").2 rfl

/-- C1 counterexample: committing version 5 to a fresh asset (whose next
version is 1, so 5 is out of sequence) does NOT fail: the entry (5, f) is
appended to the history and the current version is set to 5. -/
theorem commit_out_of_sequence_cex :
    (5 : Nat) ≠ get_next_version_number emptySession "kitchen_renovation" ∧
    dictGet (update_asset_version emptySession "kitchen_renovation" 5
        "kitchen_renovation_v5.png").asset_versions "kitchen_renovation" =
      some 5 ∧
    assetHistory (update_asset_version emptySession "kitchen_renovation" 5
        "kitchen_renovation_v5.png") "kitchen_renovation" =
      [(5, "kitchen_renovation_v5.png")] := by
  refine ⟨by decide, ?_, ?_⟩ <;> rfl

/-- C1 amended: `update_asset_version` performs no sequencing check: even when
the supplied version differs from current_version + 1, the commit succeeds,
appending (version, filename) to the asset's history and setting the
current-version and current-filename maps to the supplied values. -/
theorem commit_out_of_sequence_still_writes (st : SessionState) (a : String)
    (v : Nat) (f : String) (h : v ≠ get_next_version_number st a) :
    dictGet (update_asset_version st a v f).asset_versions a = some v ∧
    dictGet (update_asset_version st a v f).asset_filenames a = some f ∧
    assetHistory (update_asset_version st a v f) a =
      assetHistory st a ++ [(v, f)] := by
  refine ⟨?_, ?_, assetHistory_update_self st a v f⟩
  · simp [update_asset_version, dictGet_dictInsert_self]
  · simp [update_asset_version, dictGet_dictInsert_self]

theorem commit_out_of_sequence_still_writes_witness :
    (5 : Nat) ≠ get_next_version_number emptySession "bath" ∧
    dictGet (update_asset_version emptySession "bath" 5
        "bath_v5.png").asset_versions "bath" = some 5 :=
  ⟨by decide,
   (commit_out_of_sequence_still_writes emptySession "bath" 5 "bath_v5.png"
      (by decide)).1⟩

/-- Python truthiness of an optional integer: None and 0 are falsy. -/
def pyTruthyNat : Option Nat → Bool
  | none => false
  | some n => decide (n ≠ 0)

/-- Python truthiness of an optional string: None and the empty string are
falsy. -/
def pyTruthyStr : Option String → Bool
  | none => false
  | some s => !s.isEmpty

/-- The truthiness test `artifact_saved and artifact_version` applied to the
pair returned by save_artifact_safely. -/
def savedTruthy (save : Bool × Option Nat) : Bool :=
  save.1 && pyTruthyNat save.2

/-- The observable content of one chunk of the generative-model stream, as
the handlers inspect it: the chunk's first part carries inline image data,
carries text, or the chunk carries nothing usable (missing candidates,
content or parts). -/
inductive ChunkPart where
  | imageData
  | textPart (t : String)
  | other
  deriving Repr, DecidableEq

/-- Outcome of the streaming model call: either the list of chunks the
iteration observes, or an exception raised inside the try body before the
image-commit branch (no such exception mutates the session state, so they
are folded into one constructor). -/
inductive StreamOutcome where
  | chunks (cs : List ChunkPart)
  | raised (msg : String)
  deriving Repr, DecidableEq

def isImageChunk : ChunkPart → Bool
  | .imageData => true
  | _ => false

/-- The external call produced no image: it raised, or no chunk of the
stream carries inline image data. -/
def noImageOutcome : StreamOutcome → Bool
  | .raised _ => true
  | .chunks cs => cs.all (fun c => !isImageChunk c)

/-- The fields of GenerateRenovationRenderingInput the bookkeeping depends
on; the remaining fields (aspect ratio, reference-image filenames) only feed
the opaque prompt-building and model call. -/
structure GenInputs where
  prompt : String
  asset_name : String
  deriving Repr, DecidableEq

/-- Collaborator outcomes for one generate_renovation_rendering invocation:
whether a GEMINI_API_KEY/GOOGLE_API_KEY variable is set (checked before the
try block), the streaming call's outcome, whether the manual disk write
succeeds (its failure is caught and logged), and save_artifact_safely's
result. -/
structure GenEnv where
  apiKeyPresent : Bool
  stream : StreamOutcome
  diskWriteOk : Bool
  save : Bool × Option Nat
  deriving Repr, DecidableEq

/-- What one handler invocation produces: the session state afterwards, the
string returned to the caller (none when an exception escapes the handler),
and the filenames written to the local working directory. -/
structure HandlerOutput where
  st : SessionState
  reply : Option String
  diskWrites : List String
  deriving Repr, DecidableEq

/-- The chunk loop of generate_renovation_rendering: on the first chunk
carrying image data, write the file to disk (failure caught), re-read the
next version number, record the rendering and asset name in the state, try
the artifact store, commit the artifact store's version when it is truthy
and the locally computed version otherwise, and return the success message;
text chunks are only logged; an exhausted stream yields the no-rendering
message. -/
def genLoop (env : GenEnv) (st : SessionState) (inputs : GenInputs)
    (artifact_filename : String) : List ChunkPart → HandlerOutput
  | [] =>
      { st := st
        reply := some "No rendering was generated. Please try again."
        diskWrites := [] }
  | .imageData :: _ =>
      let writes := if env.diskWriteOk then [artifact_filename] else []
      let version := get_next_version_number st inputs.asset_name
      let st1 := { st with
        last_generated_rendering := some artifact_filename
        current_asset_name := some inputs.asset_name }
      let st2 :=
        if savedTruthy env.save then
          update_asset_version st1 inputs.asset_name (env.save.2.getD 0)
            artifact_filename
        else
          update_asset_version st1 inputs.asset_name version artifact_filename
      { st := st2
        reply := some ("✅ Renovation rendering generated successfully!\n\nSaved as: **"
          ++ artifact_filename ++ "** (version " ++ toString version ++ " of "
          ++ inputs.asset_name ++ ")")
        diskWrites := writes }
  | .textPart _ :: rest => genLoop env st inputs artifact_filename rest
  | .other :: rest => genLoop env st inputs artifact_filename rest

/-- src/tools.py generate_renovation_rendering: raises ValueError (escaping
the handler) when no API key is configured; otherwise runs inside a
try/except that converts every exception into a returned error message.  The
versioned filename is computed from get_next_version_number before the
stream and committed inside the image branch. -/
def generate_renovation_rendering (env : GenEnv) (st : SessionState)
    (inputs : GenInputs) : HandlerOutput :=
  if !env.apiKeyPresent then
    { st := st, reply := none, diskWrites := [] }
  else
    match env.stream with
    | .raised msg =>
        { st := st
          reply := some ("An error occurred: " ++ msg)
          diskWrites := [] }
    | .chunks cs =>
        let version := get_next_version_number st inputs.asset_name
        let artifact_filename :=
          create_versioned_filename inputs.asset_name version "png"
        genLoop env st inputs artifact_filename cs

/-- The fields of EditRenovationRenderingInput the bookkeeping depends on. -/
structure EditInputs where
  artifact_filename : String
  prompt : String
  asset_name : Option String
  deriving Repr, DecidableEq

/-- Collaborator outcomes for one edit_renovation_rendering invocation:
API-key presence, an exception raised before the image loads (client
construction or input validation, caught by the outer except), whether the
source image loads from the artifact store and from the filesystem, the
streaming call's outcome, the disk write, and save_artifact_safely's result
(which the edit handler only logs). -/
structure EditEnv where
  apiKeyPresent : Bool
  clientExn : Option String
  artifactLoaded : Bool
  fileLoaded : Bool
  stream : StreamOutcome
  diskWriteOk : Bool
  save : Bool × Option Nat
  deriving Repr, DecidableEq

/-- The characters of cs strictly before the first occurrence of the
separator sub, scanning left to right; all of cs when sub does not occur. -/
def takeBeforeSeparator (sub : List Char) : List Char → List Char
  | [] => []
  | c :: rest =>
      if List.isPrefixOf sub (c :: rest) then []
      else c :: takeBeforeSeparator sub rest

/-- Whether the separator sub occurs anywhere in cs. -/
def containsSeparator (sub : List Char) : List Char → Bool
  | [] => false
  | c :: rest => List.isPrefixOf sub (c :: rest) || containsSeparator sub rest

/-- Python `sub in s` for a nonempty separator. -/
def strContains (s sub : String) : Bool :=
  containsSeparator sub.data s.data

/-- Python `s.split(sub)[0]`: the segment of s before the first occurrence of
the separator (all of s when the separator does not occur). -/
def splitHead (s sub : String) : String :=
  ⟨takeBeforeSeparator sub.data s.data⟩

/-- The asset-name resolution of edit_renovation_rendering: the supplied
asset name when truthy; else the session's current asset name when truthy;
else the part of the artifact filename before the first occurrence of the
separator "_v" when the filename contains it; else the literal default
"renovation_rendering". -/
def resolveEditAssetName (st : SessionState) (inputs : EditInputs) : String :=
  if pyTruthyStr inputs.asset_name then
    inputs.asset_name.getD ""
  else if pyTruthyStr st.current_asset_name then
    st.current_asset_name.getD ""
  else if strContains inputs.artifact_filename "_v" then
    splitHead inputs.artifact_filename "_v"
  else
    "renovation_rendering"

/-- The versioned filename the edit handler allocates: the resolved asset
name with its next version number. -/
def editVersionedFilename (st : SessionState) (inputs : EditInputs) : String :=
  create_versioned_filename (resolveEditAssetName st inputs)
    (get_next_version_number st (resolveEditAssetName st inputs)) "png"

/-- The chunk loop of edit_renovation_rendering: on the first chunk carrying
image data, write the file to disk (failure caught), re-read the next
version number, commit it with update_asset_version, record the rendering
and asset name in the state, try the artifact store (result only logged),
and return the success message; other chunks are skipped or logged; an
exhausted stream yields the no-edited-rendering message. -/
def editLoop (env : EditEnv) (st : SessionState) (asset_name : String)
    (edited_filename : String) : List ChunkPart → HandlerOutput
  | [] =>
      { st := st
        reply := some "No edited rendering was generated. Please try again."
        diskWrites := [] }
  | .imageData :: _ =>
      let writes := if env.diskWriteOk then [edited_filename] else []
      let version := get_next_version_number st asset_name
      let st1 := update_asset_version st asset_name version edited_filename
      let st2 := { st1 with
        last_generated_rendering := some edited_filename
        current_asset_name := some asset_name }
      { st := st2
        reply := some ("✅ Rendering edited successfully!\n\nSaved as: **"
          ++ edited_filename ++ "** (version " ++ toString version ++ " of "
          ++ asset_name
          ++ ")\n\nThe rendering has been updated based on your feedback.")
        diskWrites := writes }
  | .textPart _ :: rest => editLoop env st asset_name edited_filename rest
  | .other :: rest => editLoop env st asset_name edited_filename rest

/-- src/tools.py edit_renovation_rendering: raises ValueError (escaping the
handler) when no API key is configured; otherwise every exception in the
body is converted into a returned message.  The source image is loaded from
the artifact store first, then from the filesystem; when neither succeeds
the handler returns the could-not-find-image message without touching the
state.  Otherwise it resolves the asset name, allocates the next versioned
filename, and runs the edit stream. -/
def edit_renovation_rendering (env : EditEnv) (st : SessionState)
    (inputs : EditInputs) : HandlerOutput :=
  if !env.apiKeyPresent then
    { st := st, reply := none, diskWrites := [] }
  else
    match env.clientExn with
    | some msg =>
        { st := st
          reply := some ("An error occurred while editing the rendering: " ++ msg)
          diskWrites := [] }
    | none =>
        if !(env.artifactLoaded || env.fileLoaded) then
          { st := st
            reply := some ("❌ Could not find image: " ++ inputs.artifact_filename
              ++ ". Please ensure the image was uploaded or generated.")
            diskWrites := [] }
        else
          let asset_name := resolveEditAssetName st inputs
          let edited_filename := editVersionedFilename st inputs
          match env.stream with
          | .raised msg =>
              { st := st
                reply := some ("An error occurred while editing the rendering: "
                  ++ msg)
                diskWrites := [] }
          | .chunks cs => editLoop env st asset_name edited_filename cs

theorem genLoop_reply_isSome (env : GenEnv) (st : SessionState)
    (inputs : GenInputs) (fn : String) (cs : List ChunkPart) :
    (genLoop env st inputs fn cs).reply.isSome := by
  induction cs with
  | nil => rfl
  | cons c rest ih => cases c <;> simp only [genLoop] <;> simp [ih]

theorem editLoop_reply_isSome (env : EditEnv) (st : SessionState)
    (a fn : String) (cs : List ChunkPart) :
    (editLoop env st a fn cs).reply.isSome := by
  induction cs with
  | nil => rfl
  | cons c rest ih => cases c <;> simp only [editLoop] <;> simp [ih]

theorem genLoop_no_image (env : GenEnv) (st : SessionState) (inputs : GenInputs)
    (fn : String) (cs : List ChunkPart)
    (h : cs.all (fun c => !isImageChunk c) = true) :
    genLoop env st inputs fn cs =
      { st := st
        reply := some "No rendering was generated. Please try again."
        diskWrites := [] } := by
  induction cs with
  | nil => rfl
  | cons c rest ih =>
      cases c with
      | imageData => simp [isImageChunk] at h
      | textPart t =>
          simp only [List.all_cons, Bool.and_eq_true] at h
          exact ih h.2
      | other =>
          simp only [List.all_cons, Bool.and_eq_true] at h
          exact ih h.2

theorem editLoop_no_image (env : EditEnv) (st : SessionState) (a fn : String)
    (cs : List ChunkPart) (h : cs.all (fun c => !isImageChunk c) = true) :
    editLoop env st a fn cs =
      { st := st
        reply := some "No edited rendering was generated. Please try again."
        diskWrites := [] } := by
  induction cs with
  | nil => rfl
  | cons c rest ih =>
      cases c with
      | imageData => simp [isImageChunk] at h
      | textPart t =>
          simp only [List.all_cons, Bool.and_eq_true] at h
          exact ih h.2
      | other =>
          simp only [List.all_cons, Bool.and_eq_true] at h
          exact ih h.2

/-- C4: when the source image loads neither from the artifact store nor from
the filesystem (the handler having reached the load step: an API key is set
and no earlier exception occurred), edit_renovation_rendering returns the
could-not-find-image message and the session state is returned unchanged:
no history entry is appended and no version or filename mapping is
mutated. -/
theorem edit_missing_image_no_mutation (env : EditEnv) (st : SessionState)
    (inputs : EditInputs) (hk : env.apiKeyPresent = true)
    (hc : env.clientExn = none) (ha : env.artifactLoaded = false)
    (hf : env.fileLoaded = false) :
    edit_renovation_rendering env st inputs =
      { st := st
        reply := some ("❌ Could not find image: " ++ inputs.artifact_filename
          ++ ". Please ensure the image was uploaded or generated.")
        diskWrites := [] } := by
  simp [edit_renovation_rendering, hk, hc, ha, hf]

theorem edit_missing_image_no_mutation_witness :
    edit_renovation_rendering
      { apiKeyPresent := true, clientExn := none, artifactLoaded := false,
        fileLoaded := false, stream := .chunks [], diskWriteOk := true,
        save := (false, none) }
      emptySession
      { artifact_filename := "missing.png", prompt := "brighter", asset_name := none } =
      { st := emptySession
        reply := some ("❌ Could not find image: " ++ "missing.png"
          ++ ". Please ensure the image was uploaded or generated.")
        diskWrites := [] } :=
  edit_missing_image_no_mutation _ _ _ rfl rfl rfl rfl

/-- C5: when the external call fails or produces no image — the stream raises
an exception or yields no inline image data — the tentatively computed
version is not committed: generate_renovation_rendering (given an API key)
and edit_renovation_rendering (given an API key, whatever the loads produce)
return the session state unchanged, so no history entry is appended and the
version and filename maps are untouched, and each reports the failure as a
returned text message. -/
theorem no_image_no_commit (eg : GenEnv) (ee : EditEnv)
    (stg ste : SessionState) (gi : GenInputs) (ei : EditInputs)
    (hg1 : eg.apiKeyPresent = true) (hg2 : noImageOutcome eg.stream = true)
    (he1 : ee.apiKeyPresent = true)
    (he2 : ee.clientExn.isSome = true ∨ noImageOutcome ee.stream = true) :
    ((generate_renovation_rendering eg stg gi).st = stg ∧
      (generate_renovation_rendering eg stg gi).reply.isSome) ∧
    ((edit_renovation_rendering ee ste ei).st = ste ∧
      (edit_renovation_rendering ee ste ei).reply.isSome) := by
  constructor
  · cases hs : eg.stream with
    | raised msg => simp [generate_renovation_rendering, hg1, hs]
    | chunks cs =>
        rw [hs] at hg2
        simp only [noImageOutcome] at hg2
        simp [generate_renovation_rendering, hg1, hs,
          genLoop_no_image _ _ _ _ _ hg2]
  · cases hc : ee.clientExn with
    | some msg => simp [edit_renovation_rendering, he1, hc]
    | none =>
        rcases he2 with he2 | he2
        · rw [hc] at he2
          simp at he2
        · by_cases hl : (ee.artifactLoaded || ee.fileLoaded) = true
          · cases hs : ee.stream with
            | raised msg => simp [edit_renovation_rendering, he1, hc, hl, hs]
            | chunks cs =>
                rw [hs] at he2
                simp only [noImageOutcome] at he2
                simp [edit_renovation_rendering, he1, hc, hl, hs,
                  editLoop_no_image _ _ _ _ _ he2]
          · simp only [Bool.not_eq_true] at hl
            simp [edit_renovation_rendering, he1, hc, hl]

theorem no_image_no_commit_witness :
    ((generate_renovation_rendering
        { apiKeyPresent := true, stream := .chunks [.textPart "thinking"],
          diskWriteOk := true, save := (false, none) }
        emptySession { prompt := "p", asset_name := "kitchen" }).st =
      emptySession ∧
      (generate_renovation_rendering
        { apiKeyPresent := true, stream := .chunks [.textPart "thinking"],
          diskWriteOk := true, save := (false, none) }
        emptySession { prompt := "p", asset_name := "kitchen" }).reply.isSome) ∧
    ((edit_renovation_rendering
        { apiKeyPresent := true, clientExn := none, artifactLoaded := true,
          fileLoaded := false, stream := .raised "boom", diskWriteOk := true,
          save := (false, none) }
        emptySession
        { artifact_filename := "kitchen_v1.png", prompt := "q",
          asset_name := none }).st = emptySession ∧
      (edit_renovation_rendering
        { apiKeyPresent := true, clientExn := none, artifactLoaded := true,
          fileLoaded := false, stream := .raised "boom", diskWriteOk := true,
          save := (false, none) }
        emptySession
        { artifact_filename := "kitchen_v1.png", prompt := "q",
          asset_name := none }).reply.isSome) :=
  no_image_no_commit _ _ _ _ _ _ rfl rfl rfl (Or.inr rfl)

theorem genLoop_image_fallback (env : GenEnv) (st : SessionState)
    (inputs : GenInputs) (fn : String) (cs : List ChunkPart)
    (h : cs.any isImageChunk = true) (hsave : savedTruthy env.save = false) :
    genLoop env st inputs fn cs =
      { st := update_asset_version
          { st with last_generated_rendering := some fn
                    current_asset_name := some inputs.asset_name }
          inputs.asset_name (get_next_version_number st inputs.asset_name) fn
        reply := some ("✅ Renovation rendering generated successfully!\n\nSaved as: **"
          ++ fn ++ "** (version "
          ++ toString (get_next_version_number st inputs.asset_name) ++ " of "
          ++ inputs.asset_name ++ ")")
        diskWrites := if env.diskWriteOk then [fn] else [] } := by
  induction cs with
  | nil => simp at h
  | cons c rest ih =>
      cases c with
      | imageData => simp [genLoop, hsave]
      | textPart t =>
          simp only [List.any_cons, isImageChunk, Bool.false_or] at h
          exact ih h
      | other =>
          simp only [List.any_cons, isImageChunk, Bool.false_or] at h
          exact ih h

theorem editLoop_image_commit (env : EditEnv) (st : SessionState)
    (a fn : String) (cs : List ChunkPart) (h : cs.any isImageChunk = true) :
    editLoop env st a fn cs =
      { st := { update_asset_version st a (get_next_version_number st a) fn with
                  last_generated_rendering := some fn
                  current_asset_name := some a }
        reply := some ("✅ Rendering edited successfully!\n\nSaved as: **"
          ++ fn ++ "** (version " ++ toString (get_next_version_number st a)
          ++ " of " ++ a
          ++ ")\n\nThe rendering has been updated based on your feedback.")
        diskWrites := if env.diskWriteOk then [fn] else [] } := by
  induction cs with
  | nil => simp at h
  | cons c rest ih =>
      cases c with
      | imageData => simp [editLoop]
      | textPart t =>
          simp only [List.any_cons, isImageChunk, Bool.false_or] at h
          exact ih h
      | other =>
          simp only [List.any_cons, isImageChunk, Bool.false_or] at h
          exact ih h

/-- C7: when the artifact store is unavailable or saving fails (the result of
save_artifact_safely is not truthy), a generation or edit that produced an
image still succeeds: a reply is returned, the image file is written to the
local working directory, and the locally computed version and versioned
filename are committed to the store — the asset's version counter advances
by one and the history gains exactly that entry. -/
theorem persistence_fallback_still_commits (eg : GenEnv) (ee : EditEnv)
    (stg ste : SessionState) (gi : GenInputs) (ei : EditInputs)
    (csg cse : List ChunkPart)
    (hg1 : eg.apiKeyPresent = true) (hgs : eg.stream = .chunks csg)
    (hgi : csg.any isImageChunk = true)
    (hgsave : savedTruthy eg.save = false) (hgd : eg.diskWriteOk = true)
    (he1 : ee.apiKeyPresent = true) (hec : ee.clientExn = none)
    (hel : (ee.artifactLoaded || ee.fileLoaded) = true)
    (hes : ee.stream = .chunks cse) (hei : cse.any isImageChunk = true)
    (hesave : savedTruthy ee.save = false) (hed : ee.diskWriteOk = true) :
    ((generate_renovation_rendering eg stg gi).reply.isSome ∧
      currentVersionOf (generate_renovation_rendering eg stg gi).st gi.asset_name
        = currentVersionOf stg gi.asset_name + 1 ∧
      dictGet (generate_renovation_rendering eg stg gi).st.asset_filenames
          gi.asset_name
        = some (create_versioned_filename gi.asset_name
            (currentVersionOf stg gi.asset_name + 1) "png") ∧
      assetHistory (generate_renovation_rendering eg stg gi).st gi.asset_name
        = assetHistory stg gi.asset_name
          ++ [(currentVersionOf stg gi.asset_name + 1,
               create_versioned_filename gi.asset_name
                 (currentVersionOf stg gi.asset_name + 1) "png")] ∧
      create_versioned_filename gi.asset_name
          (currentVersionOf stg gi.asset_name + 1) "png"
        ∈ (generate_renovation_rendering eg stg gi).diskWrites) ∧
    ((edit_renovation_rendering ee ste ei).reply.isSome ∧
      currentVersionOf (edit_renovation_rendering ee ste ei).st
          (resolveEditAssetName ste ei)
        = currentVersionOf ste (resolveEditAssetName ste ei) + 1 ∧
      dictGet (edit_renovation_rendering ee ste ei).st.asset_filenames
          (resolveEditAssetName ste ei)
        = some (editVersionedFilename ste ei) ∧
      assetHistory (edit_renovation_rendering ee ste ei).st
          (resolveEditAssetName ste ei)
        = assetHistory ste (resolveEditAssetName ste ei)
          ++ [(currentVersionOf ste (resolveEditAssetName ste ei) + 1,
               editVersionedFilename ste ei)] ∧
      editVersionedFilename ste ei
        ∈ (edit_renovation_rendering ee ste ei).diskWrites) := by
  constructor
  · have hout : generate_renovation_rendering eg stg gi =
        genLoop eg stg gi
          (create_versioned_filename gi.asset_name
            (get_next_version_number stg gi.asset_name) "png") csg := by
      simp [generate_renovation_rendering, hg1, hgs]
    rw [hout, genLoop_image_fallback _ _ _ _ _ hgi hgsave]
    refine ⟨rfl, ?_, ?_, ?_, ?_⟩
    · exact currentVersionOf_update_self _ _ _ _
    · simp [update_asset_version, dictGet_dictInsert_self,
        get_next_version_number, currentVersionOf]
    · rw [assetHistory_update_self]
      rfl
    · simp [hgd, get_next_version_number, currentVersionOf]
  · have hout : edit_renovation_rendering ee ste ei =
        editLoop ee ste (resolveEditAssetName ste ei)
          (editVersionedFilename ste ei) cse := by
      simp [edit_renovation_rendering, he1, hec, hel, hes]
    rw [hout, editLoop_image_commit _ _ _ _ _ hei]
    refine ⟨rfl, ?_, ?_, ?_, ?_⟩
    · simp [currentVersionOf, update_asset_version, dictGet_dictInsert_self,
        get_next_version_number]
    · simp [update_asset_version, dictGet_dictInsert_self,
        editVersionedFilename, get_next_version_number, currentVersionOf]
    · rw [show assetHistory
          { update_asset_version ste (resolveEditAssetName ste ei)
              (get_next_version_number ste (resolveEditAssetName ste ei))
              (editVersionedFilename ste ei) with
            last_generated_rendering := some (editVersionedFilename ste ei)
            current_asset_name := some (resolveEditAssetName ste ei) }
          (resolveEditAssetName ste ei) =
        assetHistory
          (update_asset_version ste (resolveEditAssetName ste ei)
            (get_next_version_number ste (resolveEditAssetName ste ei))
            (editVersionedFilename ste ei))
          (resolveEditAssetName ste ei) from rfl]
      rw [assetHistory_update_self]
      rfl
    · simp [hed]

theorem persistence_fallback_still_commits_witness :
    ((generate_renovation_rendering
        { apiKeyPresent := true, stream := .chunks [.imageData],
          diskWriteOk := true, save := (false, none) }
        emptySession { prompt := "p", asset_name := "kitchen" }).reply.isSome ∧
      currentVersionOf
        (generate_renovation_rendering
          { apiKeyPresent := true, stream := .chunks [.imageData],
            diskWriteOk := true, save := (false, none) }
          emptySession { prompt := "p", asset_name := "kitchen" }).st "kitchen"
        = 1) ∧
    (edit_renovation_rendering
      { apiKeyPresent := true, clientExn := none, artifactLoaded := true,
        fileLoaded := false, stream := .chunks [.imageData],
        diskWriteOk := true, save := (false, none) }
      emptySession
      { artifact_filename := "kitchen_v1.png", prompt := "q",
        asset_name := none }).reply.isSome := by
  have h := persistence_fallback_still_commits
    { apiKeyPresent := true, stream := .chunks [.imageData],
      diskWriteOk := true, save := (false, none) }
    { apiKeyPresent := true, clientExn := none, artifactLoaded := true,
      fileLoaded := false, stream := .chunks [.imageData],
      diskWriteOk := true, save := (false, none) }
    emptySession emptySession
    { prompt := "p", asset_name := "kitchen" }
    { artifact_filename := "kitchen_v1.png", prompt := "q",
      asset_name := none }
    [.imageData] [.imageData]
    rfl rfl rfl rfl rfl rfl rfl rfl rfl rfl rfl rfl
  exact ⟨⟨h.1.1, h.1.2.1⟩, h.2.1⟩

/-- C8 counterexample: with neither GEMINI_API_KEY nor GOOGLE_API_KEY set,
generate_renovation_rendering raises ValueError before entering its
try/except, so the failure escapes the handler instead of being converted
into a returned message (the embedded reply is none). -/
theorem unhandled_missing_api_key_cex :
    (generate_renovation_rendering
      { apiKeyPresent := false, stream := .chunks [], diskWriteOk := true,
        save := (false, none) }
      emptySession
      { prompt := "plan my kitchen", asset_name := "kitchen" }).reply
      = none := rfl

/-- C8 amended: provided at least one of the API-key environment variables is
set, every collaborator or internal failure in either handler body is caught
and converted into a returned text message — for all collaborator outcomes
both handlers return a reply; the sole propagating exception is the
ValueError raised by the API-key check preceding each handler's try block. -/
theorem handlers_reply_with_api_key (eg : GenEnv) (ee : EditEnv)
    (stg ste : SessionState) (gi : GenInputs) (ei : EditInputs)
    (hg : eg.apiKeyPresent = true) (he : ee.apiKeyPresent = true) :
    (generate_renovation_rendering eg stg gi).reply.isSome ∧
    (edit_renovation_rendering ee ste ei).reply.isSome := by
  constructor
  · cases hs : eg.stream with
    | raised msg => simp [generate_renovation_rendering, hg, hs]
    | chunks cs =>
        simp [generate_renovation_rendering, hg, hs, genLoop_reply_isSome]
  · cases hc : ee.clientExn with
    | some msg => simp [edit_renovation_rendering, he, hc]
    | none =>
        by_cases hl : (ee.artifactLoaded || ee.fileLoaded) = true
        · cases hs : ee.stream with
          | raised msg => simp [edit_renovation_rendering, he, hc, hl, hs]
          | chunks cs =>
              simp [edit_renovation_rendering, he, hc, hl, hs,
                editLoop_reply_isSome]
        · simp only [Bool.not_eq_true] at hl
          simp [edit_renovation_rendering, he, hc, hl]

theorem handlers_reply_with_api_key_witness :
    (generate_renovation_rendering
      { apiKeyPresent := true, stream := .raised "service overloaded",
        diskWriteOk := true, save := (false, none) }
      emptySession { prompt := "p", asset_name := "kitchen" }).reply.isSome ∧
    (edit_renovation_rendering
      { apiKeyPresent := true, clientExn := some "invalid input",
        artifactLoaded := false, fileLoaded := false, stream := .chunks [],
        diskWriteOk := true, save := (false, none) }
      emptySession
      { artifact_filename := "kitchen_v1.png", prompt := "q",
        asset_name := none }).reply.isSome :=
  handlers_reply_with_api_key _ _ _ _ _ _ rfl rfl

/-- One handler invocation within a session: a generation or an edit, each
with its collaborator outcomes. -/
inductive SessionOp where
  | gen (env : GenEnv) (inputs : GenInputs)
  | edit (env : EditEnv) (inputs : EditInputs)

/-- Run one invocation, keeping only the resulting session state. -/
def runOp (st : SessionState) : SessionOp → SessionState
  | .gen env inputs => (generate_renovation_rendering env st inputs).st
  | .edit env inputs => (edit_renovation_rendering env st inputs).st

/-- Run a sequence of invocations from a starting state. -/
def runOps (st : SessionState) (ops : List SessionOp) : SessionState :=
  ops.foldl runOp st

/-- An asset's history is contiguous: its recorded versions are exactly
1..current and its length equals the current version. -/
def ContiguousHistory (st : SessionState) (a : String) : Prop :=
  historyVersions st a = List.range' 1 (currentVersionOf st a) ∧
  (assetHistory st a).length = currentVersionOf st a

/-- The invocation can only commit the locally computed version to asset a:
every edit qualifies (edits always commit the local version), and a
generation qualifies when it targets another asset or its artifact-store
save result is not truthy. -/
def CommitsLocally (a : String) : SessionOp → Prop
  | .gen env inputs => inputs.asset_name = a → savedTruthy env.save = false
  | .edit _ _ => True

theorem genLoop_st_cases (env : GenEnv) (st : SessionState) (inputs : GenInputs)
    (fn : String) (cs : List ChunkPart) :
    (genLoop env st inputs fn cs).st = st ∨
    (genLoop env st inputs fn cs).st =
      update_asset_version
        { st with last_generated_rendering := some fn
                  current_asset_name := some inputs.asset_name }
        inputs.asset_name
        (if savedTruthy env.save then env.save.2.getD 0
         else get_next_version_number st inputs.asset_name) fn := by
  induction cs with
  | nil => exact Or.inl rfl
  | cons c rest ih =>
      cases c with
      | imageData =>
          refine Or.inr ?_
          by_cases hs : savedTruthy env.save <;> simp [genLoop, hs]
      | textPart t => exact ih
      | other => exact ih

theorem editLoop_st_cases (env : EditEnv) (st : SessionState) (a fn : String)
    (cs : List ChunkPart) :
    (editLoop env st a fn cs).st = st ∨
    (editLoop env st a fn cs).st =
      { update_asset_version st a (get_next_version_number st a) fn with
          last_generated_rendering := some fn
          current_asset_name := some a } := by
  induction cs with
  | nil => exact Or.inl rfl
  | cons c rest ih =>
      cases c with
      | imageData => exact Or.inr rfl
      | textPart t => exact ih
      | other => exact ih

theorem contiguousHistory_update_local (st : SessionState) (b fn a : String)
    (h : ContiguousHistory st a) :
    ContiguousHistory
      (update_asset_version st b (get_next_version_number st b) fn) a := by
  obtain ⟨h1, h2⟩ := h
  by_cases hab : b = a
  · subst hab
    constructor
    · show ((assetHistory _ b).map Prod.fst) = _
      rw [assetHistory_update_self, currentVersionOf_update_self,
        List.map_append]
      show historyVersions st b ++ [get_next_version_number st b] = _
      rw [h1]
      show _ = List.range' 1 (currentVersionOf st b + 1)
      rw [List.range'_concat]
      simp [get_next_version_number, currentVersionOf, Nat.add_comm]
    · rw [assetHistory_update_self, currentVersionOf_update_self,
        List.length_append, h2]
      rfl
  · have hba : a ≠ b := fun hh => hab hh.symm
    constructor
    · show ((assetHistory _ a).map Prod.fst) = _
      rw [assetHistory_update_ne _ _ _ _ _ hba,
        currentVersionOf_update_ne _ _ _ _ _ hba]
      exact h1
    · rw [assetHistory_update_ne _ _ _ _ _ hba,
        currentVersionOf_update_ne _ _ _ _ _ hba]
      exact h2

theorem contiguousHistory_runOp (st : SessionState) (a : String)
    (op : SessionOp) (hop : CommitsLocally a op)
    (h : ContiguousHistory st a) : ContiguousHistory (runOp st op) a := by
  cases op with
  | gen env inputs =>
      show ContiguousHistory (generate_renovation_rendering env st inputs).st a
      unfold generate_renovation_rendering
      by_cases hk : env.apiKeyPresent
      · cases hs : env.stream with
        | raised msg => simpa [hk, hs] using h
        | chunks cs =>
            simp only [hk, Bool.not_true, Bool.false_eq_true, if_false]
            rcases genLoop_st_cases env st inputs
              (create_versioned_filename inputs.asset_name
                (get_next_version_number st inputs.asset_name) "png") cs with
              hc | hc
            · rw [hc]; exact h
            · rw [hc]
              by_cases hab : inputs.asset_name = a
              · have hsave : savedTruthy env.save = false := hop hab
                rw [hsave]
                simp only [Bool.false_eq_true, if_false]
                exact contiguousHistory_update_local _ _ _ _ h
              · have hba : a ≠ inputs.asset_name := fun hh => hab hh.symm
                constructor
                · show ((assetHistory _ a).map Prod.fst) = _
                  rw [assetHistory_update_ne _ _ _ _ _ hba,
                    currentVersionOf_update_ne _ _ _ _ _ hba]
                  exact h.1
                · rw [assetHistory_update_ne _ _ _ _ _ hba,
                    currentVersionOf_update_ne _ _ _ _ _ hba]
                  exact h.2
      · simp only [Bool.not_eq_true] at hk
        simpa [hk] using h
  | edit env inputs =>
      show ContiguousHistory (edit_renovation_rendering env st inputs).st a
      unfold edit_renovation_rendering
      by_cases hk : env.apiKeyPresent
      · cases hc : env.clientExn with
        | some msg => simpa [hk, hc] using h
        | none =>
            by_cases hl : (env.artifactLoaded || env.fileLoaded) = true
            · cases hs : env.stream with
              | raised msg => simpa [hk, hc, hl, hs] using h
              | chunks cs =>
                  simp only [hk, hc, hl, Bool.not_true, Bool.false_eq_true,
                    if_false, Bool.not_false, if_true]
                  rcases editLoop_st_cases env st
                    (resolveEditAssetName st inputs)
                    (editVersionedFilename st inputs) cs with hcs | hcs
                  · rw [hcs]; exact h
                  · rw [hcs]
                    exact contiguousHistory_update_local _ _ _ _ h
            · simp only [Bool.not_eq_true] at hl
              simpa [hk, hc, hl] using h
      · simp only [Bool.not_eq_true] at hk
        simpa [hk] using h

/-- C2 counterexample: one successful generation commit during which the
artifact store reports version 5 leaves history versions [5], not [1]: the
handler commits the artifact store's version whenever it is truthy, so even
a single-commit sequence can record a gapped history. -/
theorem history_gap_cex :
    historyVersions
      (runOp emptySession
        (.gen { apiKeyPresent := true, stream := .chunks [.imageData],
                diskWriteOk := true, save := (true, some 5) }
          { prompt := "p", asset_name := "kitchen" }))
      "kitchen" = [5] ∧ ([5] : List Nat) ≠ [1] :=
  ⟨rfl, by decide⟩

/-- C2 amended: for every sequence of invocations in a session in which each
successful commit to asset a records the locally computed next version —
which holds for every edit, and for every generation that targets a
different asset or whose artifact-store save result is not truthy — the
versions recorded in a's history are exactly 1..n for n the history length:
contiguous from 1, strictly increasing, no gaps, no reuse. -/
theorem local_commits_contiguous (a : String) (ops : List SessionOp)
    (hops : ∀ op ∈ ops, CommitsLocally a op) :
    historyVersions (runOps emptySession ops) a =
      List.range' 1 ((assetHistory (runOps emptySession ops) a).length) := by
  have key : ∀ (l : List SessionOp) (st : SessionState),
      (∀ op ∈ l, CommitsLocally a op) → ContiguousHistory st a →
      ContiguousHistory (runOps st l) a := by
    intro l
    induction l with
    | nil => intro st _ h; exact h
    | cons op rest ih =>
        intro st hall h
        show ContiguousHistory (runOps (runOp st op) rest) a
        exact ih _ (fun o ho => hall o (List.mem_cons_of_mem _ ho))
          (contiguousHistory_runOp st a op (hall op (List.mem_cons_self _ _)) h)
  obtain ⟨h1, h2⟩ := key ops emptySession hops ⟨rfl, rfl⟩
  rw [h1, h2]

theorem local_commits_contiguous_witness :
    historyVersions
      (runOps emptySession
        [ .gen { apiKeyPresent := true, stream := .chunks [.imageData],
                 diskWriteOk := true, save := (false, none) }
            { prompt := "p", asset_name := "kitchen" },
          .edit { apiKeyPresent := true, clientExn := none,
                  artifactLoaded := true, fileLoaded := false,
                  stream := .chunks [.imageData], diskWriteOk := true,
                  save := (false, none) }
            { artifact_filename := "kitchen_v1.png", prompt := "q",
              asset_name := none } ])
      "kitchen" =
      List.range' 1
        ((assetHistory
          (runOps emptySession
            [ .gen { apiKeyPresent := true, stream := .chunks [.imageData],
                     diskWriteOk := true, save := (false, none) }
                { prompt := "p", asset_name := "kitchen" },
              .edit { apiKeyPresent := true, clientExn := none,
                      artifactLoaded := true, fileLoaded := false,
                      stream := .chunks [.imageData], diskWriteOk := true,
                      save := (false, none) }
                { artifact_filename := "kitchen_v1.png", prompt := "q",
                  asset_name := none } ])
          "kitchen").length) :=
  local_commits_contiguous "kitchen" _ (by
    intro op hop
    simp only [List.mem_cons, List.not_mem_nil, or_false] at hop
    rcases hop with h | h
    · subst h; intro _; rfl
    · subst h; trivial)

/-- C10: in edit_renovation_rendering, when inputs.asset_name is not
provided, the asset name for the new version is resolved deterministically:
it is the session state's current_asset_name when that is set (a truthy,
non-empty value); otherwise the portion of artifact_filename before the
first occurrence of the separator "_v" when the filename contains that
separator; otherwise the literal default "renovation_rendering" — and the
new version's filename is the resolved name, then "_v", then the next
version number, then ".png". -/
theorem edit_asset_name_resolution (st : SessionState) (inputs : EditInputs)
    (hnone : inputs.asset_name = none) :
    (∀ n, st.current_asset_name = some n → n ≠ "" →
      resolveEditAssetName st inputs = n) ∧
    (pyTruthyStr st.current_asset_name = false →
      (strContains inputs.artifact_filename "_v" = true →
        resolveEditAssetName st inputs =
          splitHead inputs.artifact_filename "_v") ∧
      (strContains inputs.artifact_filename "_v" = false →
        resolveEditAssetName st inputs = "renovation_rendering")) ∧
    editVersionedFilename st inputs =
      resolveEditAssetName st inputs ++ "_v"
        ++ toString (get_next_version_number st (resolveEditAssetName st inputs))
        ++ ".png" := by
  refine ⟨?_, ?_, ?_⟩
  · intro n hn hne
    have hE : n.isEmpty = false := by
      rw [Bool.eq_false_iff]
      intro hb
      exact hne ((String.isEmpty_iff n).mp hb)
    simp [resolveEditAssetName, hnone, pyTruthyStr, hn, hE]
  · intro hcur
    have hpn : pyTruthyStr (none : Option String) = false := rfl
    constructor <;> intro hv <;>
      simp [resolveEditAssetName, hnone, hpn, hcur, hv]
  · show create_versioned_filename _ _ _ = _
    rw [create_versioned_filename]
    rw [String.append_assoc _ "." "png"]
    rfl

theorem edit_asset_name_resolution_witness :
    (some "kitchen_v2.png" : Option String).isSome = true ∧
    resolveEditAssetName emptySession
      { artifact_filename := "kitchen_v2.png", prompt := "p",
        asset_name := none } = "kitchen" := by
  have h := edit_asset_name_resolution emptySession
    { artifact_filename := "kitchen_v2.png", prompt := "p",
      asset_name := none } rfl
  have h2 := (h.2.1 rfl).1 (by decide)
  refine ⟨rfl, ?_⟩
  rw [h2]
  decide
